import Mathlib

/- Verification development for the single-file Lisp JIT compiler
   (compiler.c).  The C code is embedded shallowly:

   * machine integers are `Int`/`Nat` with explicit two's-complement
     wrapping (`wrap32`, `int8wrap`) where the C does 32-bit or 8-bit
     arithmetic;
   * a fatal C `assert` is modelled by `Option`: an aborted computation
     is `none`;
   * the executable buffer is a total byte map `Nat → Nat` of a fixed
     length together with a write cursor, matching the mmap'd region and
     `BufferWriter`;
   * the unbounded C recursion of the compiler and the reader is driven
     by an explicit fuel parameter; every recursive call consumes one
     unit of fuel, and exhausted fuel yields `none`.  All concrete
     evaluations below use ample fuel. -/

-- ---------------------------------------------------------------------
-- Object tag constants (top of compiler.c).
-- ---------------------------------------------------------------------

def kFixnumShift : Nat := 2
def kBoolShift : Nat := 7
def kCharShift : Nat := 8
def kCharTag : Nat := 0xf
def kBoolTag : Nat := 0x1f
def kWordSize : Nat := 8

-- Two's-complement helpers.

def wrap32 (x : Int) : Int := (x + 2147483648) % 4294967296 - 2147483648

def int8wrap (x : Int) : Int := (x + 128) % 256 - 128

/-- Byte `i` (little-endian) of the 32-bit two's-complement value `v`:
the C expression `(v >> (i*8)) & 0xff` evaluated on an `int32_t`. -/
def int32byte (v : Int) (i : Nat) : Nat :=
  ((v % 4294967296).toNat >>> (8 * i)) % 256

/-- `encodeImmediateFixnum` (compiler.c): asserts
`f < 0x7fffffff` and `f > -0x80000000L`, then returns `f << 2` as an
`int32_t` (the shift wraps in 32 bits). -/
def encodeImmediateFixnum (f : Int) : Option Int :=
  if f < 0x7fffffff then
    if f > -0x80000000 then some (wrap32 (f * 4))
    else none
  else none

/-- `encodeImmediateBool` (compiler.c). -/
def encodeImmediateBool (value : Bool) : Nat :=
  ((if value then 1 else 0) <<< kBoolShift) ||| kBoolTag

/-- `encodeImmediateChar` (compiler.c); `c` is an ASCII code point. -/
def encodeImmediateChar (c : Nat) : Nat :=
  (c <<< kCharShift) ||| kCharTag

-- ---------------------------------------------------------------------
-- Executable buffer and writer.
-- ---------------------------------------------------------------------

inductive BufferState where
  | kWritable
  | kExecutable
deriving DecidableEq

structure Buffer where
  mem : Nat → Nat
  len : Nat
  state : BufferState

/-- `Buffer_init`: the mmap result is an input of the model (`none`
means `MAP_FAILED`); the C asserts the mapping succeeded. -/
def Buffer_init (mmap_result : Option (Nat → Nat)) (len : Nat) :
    Option Buffer :=
  match mmap_result with
  | none => none
  | some mem => some { mem := mem, len := len, state := .kWritable }

/-- `Buffer_make_executable`: stores the mprotect result, sets the state
to executable unconditionally, and returns the result to the caller
(there is no assertion on it in the C). -/
def Buffer_make_executable (buf : Buffer) (mprotect_result : Int) :
    Buffer × Int :=
  ({ buf with state := .kExecutable }, mprotect_result)

/-- `Buffer_at_put`: unchecked in-place byte write. -/
def Buffer_at_put (buf : Buffer) (pos : Nat) (b : Nat) : Buffer :=
  { buf with mem := Function.update buf.mem pos b }

structure BufferWriter where
  buf : Buffer
  pos : Nat

def BufferWriter_init (buf : Buffer) : BufferWriter :=
  { buf := buf, pos := 0 }

def BufferWriter_get_pos (writer : BufferWriter) : Nat := writer.pos

/-- `Buffer_write8`: asserts `pos < buf->len`, writes one byte, bumps
the cursor. -/
def Buffer_write8 (writer : BufferWriter) (b : Nat) : Option BufferWriter :=
  if writer.pos < writer.buf.len then
    some { buf := Buffer_at_put writer.buf writer.pos b,
           pos := writer.pos + 1 }
  else none

/-- `Buffer_write32`: four `Buffer_write8`s of the little-endian bytes
of an `int32_t` (the loop of the C unrolled). -/
def Buffer_write32 (writer : BufferWriter) (value : Int) :
    Option BufferWriter := do
  let w ← Buffer_write8 writer (int32byte value 0)
  let w ← Buffer_write8 w (int32byte value 1)
  let w ← Buffer_write8 w (int32byte value 2)
  Buffer_write8 w (int32byte value 3)

/-- `BufferWriter_backpatch_displacement_imm32`: overwrites the four
bytes preceding `pos_after_jump` with the little-endian `int32`
`writer->pos - pos_after_jump` (loop of the C unrolled; the byte
addresses are in range whenever `4 ≤ pos_after_jump`, which holds at
every call site since a jump was emitted before). -/
def BufferWriter_backpatch_displacement_imm32 (writer : BufferWriter)
    (pos_after_jump : Nat) : BufferWriter :=
  let relative : Int := (writer.pos : Int) - (pos_after_jump : Int)
  let displacement_first_byte : Int := (pos_after_jump : Int) - 4
  let b0 := Buffer_at_put writer.buf (displacement_first_byte + 0).toNat
    (int32byte relative 0)
  let b1 := Buffer_at_put b0 (displacement_first_byte + 1).toNat
    (int32byte relative 1)
  let b2 := Buffer_at_put b1 (displacement_first_byte + 2).toNat
    (int32byte relative 2)
  let b3 := Buffer_at_put b2 (displacement_first_byte + 3).toNat
    (int32byte relative 3)
  { writer with buf := b3 }

/-- The bytes emitted so far (positions `0 .. pos-1`). -/
def bytesList (writer : BufferWriter) : List Nat :=
  (List.range writer.pos).map writer.buf.mem

-- ---------------------------------------------------------------------
-- Instruction emitters.
-- ---------------------------------------------------------------------

def kRax : Nat := 0
def kRcx : Nat := 1
def kRdx : Nat := 2
def kRbx : Nat := 3
def kRsp : Nat := 4
def kRbp : Nat := 5
def kRsi : Nat := 6
def kRdi : Nat := 7

def kAl : Nat := 0

inductive Condition where
  | kEqual
deriving DecidableEq

def Buffer_mov_reg_imm32 (writer : BufferWriter) (dst : Nat) (src : Int) :
    Option BufferWriter := do
  let w ← Buffer_write8 writer (0xb8 + dst)
  Buffer_write32 w src

def Buffer_add_reg_imm32 (writer : BufferWriter) (dst : Nat) (src : Int) :
    Option BufferWriter := do
  if dst = kRax then
    let w ← Buffer_write8 writer 0x05
    Buffer_write32 w src
  else
    let w ← Buffer_write8 writer 0x81
    let w ← Buffer_write8 w (0xc0 + dst)
    Buffer_write32 w src

/-- `Buffer_sub_reg_imm32` exactly as in the source: note that the
non-rax branch writes opcode byte `0x83` (its own comment says the
encoding is `81 e8 imm32`). -/
def Buffer_sub_reg_imm32 (writer : BufferWriter) (dst : Nat) (src : Int) :
    Option BufferWriter := do
  if dst = kRax then
    let w ← Buffer_write8 writer 0x2d
    Buffer_write32 w src
  else
    let w ← Buffer_write8 writer 0x83
    let w ← Buffer_write8 w (0xe8 + dst)
    Buffer_write32 w src

def Buffer_add_reg_stack (writer : BufferWriter) (dst : Nat)
    (offset : Int) : Option BufferWriter := do
  let off := int8wrap offset
  if off < 0 then
    let w ← Buffer_write8 writer 0x48
    let w ← Buffer_write8 w 0x03
    let w ← Buffer_write8 w (0x04 + dst * 8 + (if off = 0 then 0 else 0x40))
    let w ← Buffer_write8 w 0x24
    Buffer_write8 w ((0x100 + off).toNat % 256)
  else none

def encode_disp (disp : Int) : Nat :=
  if 0 ≤ disp then disp.toNat else (0x100 + disp).toNat

def Buffer_mov_rax_to_reg_disp (writer : BufferWriter) (dst : Nat)
    (disp : Int) : Option BufferWriter := do
  let w ← Buffer_write8 writer 0x48
  let w ← Buffer_write8 w 0x89
  let w ← Buffer_write8 w (0x40 + dst)
  Buffer_write8 w (encode_disp (int8wrap disp))

def Buffer_mov_reg_disp_to_rax (writer : BufferWriter) (src : Nat)
    (disp : Int) : Option BufferWriter := do
  let w ← Buffer_write8 writer 0x48
  let w ← Buffer_write8 w 0x8b
  let w ← Buffer_write8 w (0x40 + src)
  Buffer_write8 w (encode_disp (int8wrap disp))

def Buffer_mov_reg_reg (writer : BufferWriter) (dst : Nat) (src : Nat) :
    Option BufferWriter := do
  let w ← Buffer_write8 writer 0x48
  let w ← Buffer_write8 w 0x89
  Buffer_write8 w (0xc0 + dst + src * 8)

def Buffer_mov_reg_to_stack (writer : BufferWriter) (src : Nat)
    (offset : Int) : Option BufferWriter := do
  let off := int8wrap offset
  if off < 0 then
    let w ← Buffer_write8 writer 0x48
    let w ← Buffer_write8 w 0x89
    let w ← Buffer_write8 w (0x04 + src * 8 + (if off = 0 then 0 else 0x40))
    let w ← Buffer_write8 w 0x24
    Buffer_write8 w ((0x100 + off).toNat % 256)
  else none

def Buffer_mov_stack_to_reg (writer : BufferWriter) (dst : Nat)
    (offset : Int) : Option BufferWriter := do
  let off := int8wrap offset
  if off < 0 then
    let w ← Buffer_write8 writer 0x48
    let w ← Buffer_write8 w 0x8b
    let w ← Buffer_write8 w (0x04 + dst * 8 + (if off = 0 then 0 else 0x40))
    let w ← Buffer_write8 w 0x24
    Buffer_write8 w ((0x100 + off).toNat % 256)
  else none

def Buffer_shl_reg (writer : BufferWriter) (dst : Nat) (bits : Int) :
    Option BufferWriter := do
  if 0 ≤ bits then
    if bits < 64 then
      let w ← Buffer_write8 writer 0x48
      let w ← Buffer_write8 w 0xc1
      let w ← Buffer_write8 w (0xe0 + dst)
      Buffer_write8 w bits.toNat
    else none
  else none

def Buffer_or_reg_imm32 (writer : BufferWriter) (dst : Nat) (value : Int) :
    Option BufferWriter := do
  let w ← Buffer_write8 writer 0x48
  if dst = kRax then
    let w ← Buffer_write8 w 0x0d
    Buffer_write32 w value
  else
    let w ← Buffer_write8 w 0x81
    let w ← Buffer_write8 w (0xc8 + dst)
    Buffer_write32 w value

def Buffer_cmp_reg_imm32 (writer : BufferWriter) (dst : Nat) (value : Int) :
    Option BufferWriter := do
  if dst = kRax then
    let w ← Buffer_write8 writer 0x48
    let w ← Buffer_write8 w 0x3d
    Buffer_write32 w value
  else
    let w ← Buffer_write8 writer 0x48
    let w ← Buffer_write8 w 0x81
    let w ← Buffer_write8 w (0xf8 + dst)
    Buffer_write32 w value

def Buffer_setcc_reg (writer : BufferWriter) (cond : Condition)
    (dst : Nat) : Option BufferWriter := do
  match cond with
  | .kEqual =>
    let w ← Buffer_write8 writer 0x0f
    let w ← Buffer_write8 w 0x94
    Buffer_write8 w (0xc0 + dst)

def Buffer_je_imm32 (writer : BufferWriter) (disp : Int) :
    Option BufferWriter := do
  if 0 < disp then
    let w ← Buffer_write8 writer 0x0f
    let w ← Buffer_write8 w 0x84
    Buffer_write32 w disp
  else none

def Buffer_jmp_imm32 (writer : BufferWriter) (disp : Int) :
    Option BufferWriter := do
  if 0 < disp then
    let w ← Buffer_write8 writer 0xe9
    Buffer_write32 w disp
  else none

def encode_disp32 (disp : Int) : Int :=
  if 0 ≤ disp then disp else 4294967296 + disp

def Buffer_call_imm32 (writer : BufferWriter) (disp : Int) :
    Option BufferWriter := do
  let disp := disp - 5
  let w ← Buffer_write8 writer 0xe8
  Buffer_write32 w (encode_disp32 disp)

def Buffer_ret (writer : BufferWriter) : Option BufferWriter :=
  Buffer_write8 writer 0xc3

/-- A fresh writer over a 100-byte writable region of zeroes, as
`run_test` sets one up. -/
def w0 : BufferWriter :=
  { buf := { mem := fun _ => 0, len := 100, state := .kWritable }, pos := 0 }

-- ---------------------------------------------------------------------
-- Environments (EnvNode chains; the head is the most recent binding).
-- ---------------------------------------------------------------------

abbrev Env := List (String × Int)

/-- `Env_lookup`: walks the chain from the most recent binding; the C
compares `env->name == name || strcmp(env->name, name) == 0`, i.e.
by string value. -/
def Env_lookup : Env → String → Option Int
  | [], _ => none
  | (n, v) :: next, name =>
    if n = name then some v else Env_lookup next name

-- ---------------------------------------------------------------------
-- The compiler-side AST.  `AST_new_cons` only ever builds a fully
-- determined tree, so the compiler sees `ASTNode` structurally; the
-- distinguished empty list is the `nil` constructor (the shared
-- `nil_struct`).  The reader-side model below keeps the allocator
-- explicit.
-- ---------------------------------------------------------------------

inductive ASTNode where
  | fixnum (n : Int)
  | atom (s : String)
  | nil
  | cons (car cdr : ASTNode)
deriving DecidableEq

/-- `AST_car`: asserts the node is a cons and is not `nil`. -/
def AST_car : ASTNode → Option ASTNode
  | .cons a _ => some a
  | _ => none

/-- `AST_cdr`: asserts the node is a cons and is not `nil`. -/
def AST_cdr : ASTNode → Option ASTNode
  | .cons _ d => some d
  | _ => none

def operand1 (args : ASTNode) : Option ASTNode := AST_car args

def operand2 (args : ASTNode) : Option ASTNode := do
  AST_car (← AST_cdr args)

def operand3 (args : ASTNode) : Option ASTNode := do
  AST_car (← AST_cdr (← AST_cdr args))

/-- Result of a compile step: the C `int` result (0 success, -1 user
error), the writer, and the diagnostics printed to stderr so far.
`none` is a fatal assertion (or exhausted fuel). -/
abbrev CompRes := Option (Int × BufferWriter × List String)

mutual

/-- `AST_compile_expr` (compiler.c): dispatch on the node kind. -/
def AST_compile_expr (fuel : Nat) (labels locals : Env) (node : ASTNode)
    (stack_index : Int) (w : BufferWriter) (errs : List String) : CompRes :=
  match fuel with
  | 0 => none
  | fuel + 1 =>
    match node with
    | .fixnum n => do
      let v ← encodeImmediateFixnum (wrap32 n)
      let w ← Buffer_mov_reg_imm32 w kRax v
      some (0, w, errs)
    | .atom name =>
      match Env_lookup locals name with
      | none => some (-1, w, errs ++ ["Unbound variable: " ++ name])
      | some stack_index => do
        let w ← Buffer_mov_stack_to_reg w kRax stack_index
        some (0, w, errs)
    | node => do
      let head ← AST_car node
      let rest ← AST_cdr node
      AST_compile_call fuel labels locals head rest stack_index w errs

/-- `AST_compile_call` (compiler.c): primitive dispatch on the head
atom; an unknown head or a non-atom head is a fatal assertion. -/
def AST_compile_call (fuel : Nat) (labels locals : Env)
    (fnexpr args : ASTNode) (stack_index : Int) (w : BufferWriter)
    (errs : List String) : CompRes :=
  match fuel with
  | 0 => none
  | fuel + 1 =>
    match fnexpr with
    | .atom s =>
      if s = "add1" then do
        let arg ← operand1 args
        let (_, w, errs) ← AST_compile_expr fuel labels locals arg stack_index w errs
        let v ← encodeImmediateFixnum 1
        let w ← Buffer_add_reg_imm32 w kRax v
        some (0, w, errs)
      else if s = "sub1" then do
        let arg ← operand1 args
        let (_, w, errs) ← AST_compile_expr fuel labels locals arg stack_index w errs
        let v ← encodeImmediateFixnum 1
        let w ← Buffer_sub_reg_imm32 w kRax v
        some (0, w, errs)
      else if s = "integer->char" then do
        let arg ← operand1 args
        let (_, w, errs) ← AST_compile_expr fuel labels locals arg stack_index w errs
        let w ← Buffer_shl_reg w kRax ((kCharShift : Int) - (kFixnumShift : Int))
        let w ← Buffer_or_reg_imm32 w kRax kCharTag
        some (0, w, errs)
      else if s = "zero?" then do
        let arg ← operand1 args
        let (_, w, errs) ← AST_compile_expr fuel labels locals arg stack_index w errs
        let w ← Buffer_cmp_reg_imm32 w kRax 0
        let w ← Buffer_mov_reg_imm32 w kRax 0
        let w ← Buffer_setcc_reg w .kEqual kAl
        let w ← Buffer_shl_reg w kRax kBoolShift
        let w ← Buffer_or_reg_imm32 w kRax kBoolTag
        some (0, w, errs)
      else if s = "+" then do
        let a2 ← operand2 args
        let (_, w, errs) ← AST_compile_expr fuel labels locals a2 stack_index w errs
        let w ← Buffer_mov_reg_to_stack w kRax stack_index
        let a1 ← operand1 args
        let (_, w, errs) ← AST_compile_expr fuel labels locals a1
          (stack_index - kWordSize) w errs
        let w ← Buffer_add_reg_stack w kRax stack_index
        some (0, w, errs)
      else if s = "let" then do
        let bindings ← operand1 args
        let body ← operand2 args
        AST_compile_let fuel labels locals bindings body stack_index w errs
      else if s = "if" then do
        let t ← operand1 args
        let c ← operand2 args
        let a ← operand3 args
        AST_compile_if fuel labels locals t c a stack_index w errs
      else if s = "cons" then do
        let a1 ← operand1 args
        let a2 ← operand2 args
        AST_compile_cons fuel labels locals a1 a2 stack_index w errs
      else if s = "car" then do
        let arg ← operand1 args
        let (_, w, errs) ← AST_compile_expr fuel labels locals arg stack_index w errs
        let w ← Buffer_mov_reg_disp_to_rax w kRax (-1)
        some (0, w, errs)
      else if s = "cdr" then do
        let arg ← operand1 args
        let (_, w, errs) ← AST_compile_expr fuel labels locals arg stack_index w errs
        let w ← Buffer_mov_reg_disp_to_rax w kRax ((kWordSize : Int) - 1)
        some (0, w, errs)
      else if s = "code" then do
        let formals ← operand1 args
        let body ← operand2 args
        AST_compile_code fuel labels locals formals body (-(kWordSize : Int)) w errs
      else if s = "labelcall" then do
        let label ← operand1 args
        match label with
        | .atom name =>
          match Env_lookup labels name with
          | none => some (-1, w, errs ++ ["Unbound label: " ++ name])
          | some code_pos => do
            let rest ← AST_cdr args
            AST_compile_labelcall fuel labels locals code_pos rest stack_index w errs
        | _ => none
      else none
    | _ => none

/-- `AST_compile_let` (compiler.c): sequential bindings; the result of
compiling each bound expression and the body is ignored. -/
def AST_compile_let (fuel : Nat) (labels locals : Env)
    (bindings body : ASTNode) (stack_index : Int) (w : BufferWriter)
    (errs : List String) : CompRes :=
  match fuel with
  | 0 => none
  | fuel + 1 =>
    match bindings with
    | .nil => do
      let (_, w, errs) ← AST_compile_expr fuel labels locals body stack_index w errs
      some (0, w, errs)
    | _ => do
      let first_binding ← AST_car bindings
      let name ← AST_car first_binding
      match name with
      | .atom nm => do
        let rest1 ← AST_cdr first_binding
        let expr ← AST_car rest1
        let (_, w, errs) ← AST_compile_expr fuel labels locals expr stack_index w errs
        let w ← Buffer_mov_reg_to_stack w kRax stack_index
        let rest ← AST_cdr bindings
        AST_compile_let fuel labels ((nm, stack_index) :: locals) rest body
          (stack_index - kWordSize) w errs
      | _ => none

/-- `AST_compile_if` (compiler.c): `je` and `jmp` with placeholder
displacements, back-patched at the join points. -/
def AST_compile_if (fuel : Nat) (labels locals : Env)
    (test iftrue iffalse : ASTNode) (stack_index : Int) (w : BufferWriter)
    (errs : List String) : CompRes :=
  match fuel with
  | 0 => none
  | fuel + 1 => do
    let (_, w, errs) ← AST_compile_expr fuel labels locals test stack_index w errs
    let w ← Buffer_cmp_reg_imm32 w kRax (encodeImmediateBool false)
    let w ← Buffer_je_imm32 w 0x12345678
    let iffalse_pos := BufferWriter_get_pos w
    let (_, w, errs) ← AST_compile_expr fuel labels locals iftrue stack_index w errs
    let w ← Buffer_jmp_imm32 w 0x1a2b3c4d
    let end_pos := BufferWriter_get_pos w
    let w := BufferWriter_backpatch_displacement_imm32 w iffalse_pos
    let (_, w, errs) ← AST_compile_expr fuel labels locals iffalse stack_index w errs
    let w := BufferWriter_backpatch_displacement_imm32 w end_pos
    some (0, w, errs)

/-- `AST_compile_cons` (compiler.c). -/
def AST_compile_cons (fuel : Nat) (labels locals : Env)
    (car cdr : ASTNode) (stack_index : Int) (w : BufferWriter)
    (errs : List String) : CompRes :=
  match fuel with
  | 0 => none
  | fuel + 1 => do
    let (_, w, errs) ← AST_compile_expr fuel labels locals car
      (stack_index - kWordSize) w errs
    let w ← Buffer_mov_rax_to_reg_disp w kRsi 0
    let (_, w, errs) ← AST_compile_expr fuel labels locals cdr stack_index w errs
    let w ← Buffer_mov_rax_to_reg_disp w kRsi kWordSize
    let w ← Buffer_mov_reg_reg w kRax kRsi
    let w ← Buffer_or_reg_imm32 w kRax 1
    let w ← Buffer_add_reg_imm32 w kRsi (2 * kWordSize)
    some (0, w, errs)

/-- `AST_compile_code` (compiler.c): binds the formals to
`-8, -16, …`, compiles the body, emits `ret`.  (The C reads the atom
union member of each formal without checking the tag; a non-atom
formal is undefined, modelled as `none`.) -/
def AST_compile_code (fuel : Nat) (labels locals : Env)
    (formals body : ASTNode) (stack_index : Int) (w : BufferWriter)
    (errs : List String) : CompRes :=
  match fuel with
  | 0 => none
  | fuel + 1 =>
    match formals with
    | .nil => do
      let (result, w, errs) ← AST_compile_expr fuel labels locals body stack_index w errs
      if result ≠ 0 then some (result, w, errs)
      else do
        let w ← Buffer_ret w
        some (0, w, errs)
    | _ => do
      let name ← AST_car formals
      match name with
      | .atom nm => do
        let rest ← AST_cdr formals
        AST_compile_code fuel labels ((nm, stack_index) :: locals) rest body
          (stack_index - kWordSize) w errs
      | _ => none

/-- `AST_compile_labelcall` (compiler.c): emits each argument at the
current `stack_index`, stores `rax` there, recurses with
`stack_index - kWordSize`; with no arguments left it emits
`call rel32` toward `code_pos`. -/
def AST_compile_labelcall (fuel : Nat) (labels locals : Env)
    (code_pos : Int) (args : ASTNode) (stack_index : Int)
    (w : BufferWriter) (errs : List String) : CompRes :=
  match fuel with
  | 0 => none
  | fuel + 1 =>
    match args with
    | .nil => do
      let disp : Int := code_pos - (BufferWriter_get_pos w : Int)
      let w ← Buffer_call_imm32 w disp
      some (0, w, errs)
    | .cons _ _ => do
      let arg ← AST_car args
      let (result, w, errs) ← AST_compile_expr fuel labels locals arg stack_index w errs
      if result ≠ 0 then some (result, w, errs)
      else do
        let w ← Buffer_mov_reg_to_stack w kRax stack_index
        let rest ← AST_cdr args
        AST_compile_labelcall fuel labels locals code_pos rest
          (stack_index - kWordSize) w errs
    | _ => none

end

-- ---------------------------------------------------------------------
-- Reader-side AST model with an explicit allocator.  C Reader and
-- `AST_new_*` work on `ASTNode *`: `NULL`, the shared global
-- `nil_struct`, or a malloc'd node.  A pointer is modelled by `ASTPtr`,
-- the malloc heap by a list of nodes (the address is the index, new
-- nodes are appended).
-- ---------------------------------------------------------------------

inductive ASTPtr where
  | nullp
  | nil
  | addr (a : Nat)
deriving DecidableEq

inductive HeapASTNode where
  | fixnum (n : Int)
  | atom (s : String)
  | cons (car cdr : ASTPtr)
deriving DecidableEq

abbrev Heap := List HeapASTNode

/-- `AST_new_fixnum`: malloc a fresh node. -/
def AST_new_fixnum (h : Heap) (n : Int) : Heap × ASTPtr :=
  (h ++ [.fixnum n], .addr h.length)

/-- `AST_new_atom`: malloc a fresh node owning a copy of the name. -/
def AST_new_atom (h : Heap) (s : String) : Heap × ASTPtr :=
  (h ++ [.atom s], .addr h.length)

/-- `AST_new_cons`: with both operands NULL it returns the shared
`nil` singleton and allocates nothing; with exactly one NULL it
asserts; otherwise it mallocs a fresh cons node. -/
def AST_new_cons (h : Heap) (car cdr : ASTPtr) : Option (Heap × ASTPtr) :=
  if car = .nullp ∧ cdr = .nullp then some (h, .nil)
  else if car = .nullp ∨ cdr = .nullp then none
  else some (h ++ [.cons car cdr], .addr h.length)

-- ---------------------------------------------------------------------
-- Reader.  The C input is a NUL-terminated byte string; reading past
-- the end yields the terminator.
-- ---------------------------------------------------------------------

/-- `input[pos]` on a NUL-terminated string. -/
def str_at (input : List Char) (pos : Nat) : Char :=
  input.getD pos (Char.ofNat 0)

/-- C-locale `isdigit`. -/
def isdigitC (c : Char) : Bool := c.isDigit

/-- C-locale `isspace`: space, \t, \n, \v, \f, \r. -/
def isspaceC (c : Char) : Bool :=
  c = ' ' || c = '\t' || c = '\n' || c = Char.ofNat 11 ||
  c = Char.ofNat 12 || c = '\x0d'

/-- `isatomchar` (compiler.c): `isalpha(c) || c == '+' || c == '-'`. -/
def isatomchar (c : Char) : Bool := c.isAlpha || c = '+' || c = '-'

def ATOM_MAX : Nat := 32

/-- The digit-accumulation loop of `Reader_read_number`; fuel-driven
(the loop stops at the first non-digit, at the latest at the NUL
terminator). -/
def Reader_read_number_loop (fuel : Nat) (input : List Char) (pos : Nat)
    (value : Int) : Option (Int × Nat) :=
  match fuel with
  | 0 => none
  | fuel + 1 =>
    let c := str_at input pos
    if isdigitC c then
      Reader_read_number_loop fuel input (pos + 1)
        (value * 10 + ((c.toNat : Int) - 48))
    else some (value, pos)

/-- `Reader_read_number` (compiler.c). -/
def Reader_read_number (fuel : Nat) (input : List Char) (pos : Nat)
    (h : Heap) : Option (Heap × ASTPtr × Nat) := do
  let (value, pos) ← Reader_read_number_loop fuel input pos 0
  let (h, p) := AST_new_fixnum h value
  some (h, p, pos)

/-- The accumulation loop of `Reader_read_atom`: at most
`ATOM_MAX - length` further characters are taken (`rem` is that
bound, so the recursion is structural); stops early at the first
non-atom character. -/
def Reader_read_atom_loop (rem : Nat) (input : List Char) (pos : Nat)
    (buf : List Char) : List Char × Nat :=
  match rem with
  | 0 => (buf, pos)
  | rem + 1 =>
    let c := str_at input pos
    if isatomchar c then Reader_read_atom_loop rem input (pos + 1) (buf ++ [c])
    else (buf, pos)

/-- `Reader_read_atom` (compiler.c): accumulates up to `ATOM_MAX`
characters into `buf`, NUL-terminates it and allocates the atom. -/
def Reader_read_atom (input : List Char) (pos : Nat) (h : Heap) :
    Heap × ASTPtr × Nat :=
  let (buf, pos) := Reader_read_atom_loop ATOM_MAX input pos []
  let (h, p) := AST_new_atom h (String.mk buf)
  (h, p, pos)

/-- The whitespace-skipping loop at the head of `Reader_read_rec`. -/
def skip_whitespace (fuel : Nat) (input : List Char) (pos : Nat) :
    Option Nat :=
  match fuel with
  | 0 => none
  | fuel + 1 =>
    if isspaceC (str_at input pos) then skip_whitespace fuel input (pos + 1)
    else some pos

mutual

/-- `Reader_read_rec` (compiler.c). -/
def Reader_read_rec (fuel : Nat) (input : List Char) (pos : Nat)
    (h : Heap) : Option (Heap × ASTPtr × Nat) :=
  match fuel with
  | 0 => none
  | fuel + 1 => do
    let pos ← skip_whitespace (fuel + 1) input pos
    let c := str_at input pos
    if isdigitC c then Reader_read_number (fuel + 1) input pos h
    else if isatomchar c then some (Reader_read_atom input pos h)
    else if c = '(' then Reader_read_list fuel input (pos + 1) h
    else some (h, .nullp, pos)

/-- `Reader_read_list` (compiler.c): `)` closes the list yielding the
shared `nil`; otherwise an element and the tail are read recursively
(a NULL from either recursive read is an assertion failure) and
consed. -/
def Reader_read_list (fuel : Nat) (input : List Char) (pos : Nat)
    (h : Heap) : Option (Heap × ASTPtr × Nat) :=
  match fuel with
  | 0 => none
  | fuel + 1 =>
    if str_at input pos = ')' then some (h, .nil, pos + 1)
    else do
      let (h, car, pos) ← Reader_read_rec fuel input pos h
      if car = .nullp then none
      else do
        let (h, cdr, pos) ← Reader_read_list fuel input pos h
        if cdr = .nullp then none
        else do
          let (h, p) ← AST_new_cons h car cdr
          some (h, p, pos)

end

/-- `Reader_read` (compiler.c): read one form from position 0 on a
fresh malloc heap. -/
def Reader_read (fuel : Nat) (input : List Char) :
    Option (Heap × ASTPtr) :=
  (Reader_read_rec fuel input 0 []).map (fun r => (r.1, r.2.1))

-- ---------------------------------------------------------------------
-- Theorems.
-- ---------------------------------------------------------------------

-- Helper for C10: if the next `rem` characters are all atom
-- characters, the accumulation loop takes exactly those `rem`
-- characters and advances the cursor by `rem`.
theorem Reader_read_atom_loop_all (rem : Nat) :
    ∀ (input : List Char) (pos : Nat) (buf : List Char),
      (∀ i, i < rem → isatomchar (str_at input (pos + i)) = true) →
      Reader_read_atom_loop rem input pos buf
        = (buf ++ (List.range rem).map (fun i => str_at input (pos + i)),
           pos + rem) := by
  induction rem with
  | zero => intro input pos buf _; simp [Reader_read_atom_loop]
  | succ rem ih =>
    intro input pos buf h
    have h0 : isatomchar (str_at input pos) = true := by
      simpa using h 0 (by omega)
    have hrec := ih input (pos + 1) (buf ++ [str_at input pos]) (fun i hi => by
      have hh := h (i + 1) (by omega)
      have e : pos + (i + 1) = pos + 1 + i := by omega
      rwa [e] at hh)
    simp only [Reader_read_atom_loop, h0, if_true]
    rw [hrec]
    have e1 : pos + 1 + rem = pos + (rem + 1) := by omega
    have e2 : (List.range (rem + 1)).map (fun i => str_at input (pos + i))
        = str_at input pos ::
            (List.range rem).map (fun i => str_at input (pos + 1 + i)) := by
      rw [List.range_succ_eq_map, List.map_cons, List.map_map]
      have e3 : ((fun i => str_at input (pos + i)) ∘ Nat.succ)
          = (fun i => str_at input (pos + 1 + i)) := by
        funext i
        simp only [Function.comp_apply]
        congr 1
        omega
      rw [e3]
      simp
    rw [e2, e1]
    simp

/-- C1: compiling `(labelcall id 5)` (label `id` bound at code offset 5,
caller `stack_index = -8`) stores the first argument to
`[rsp + stack_index]` itself — byte 9 of the emitted code is `0xf8`,
i.e. disp8 −8 — and with two arguments `(labelcall f 5 7)` the i-th
argument goes to `stack_index - 8*i` (`0xf8` then `0xf0`), not to
`stack_index - 8*(i+1)` as the claim states; the slot at `stack_index`
is the one the `call`'s pushed return address overwrites. -/
theorem AST_compile_labelcall_first_arg_slot :
    (AST_compile_expr 20 [("id", 5)] []
        (.cons (.atom "labelcall") (.cons (.atom "id")
          (.cons (.fixnum 5) .nil)))
        (-8) w0 []).map (fun r => (r.1, bytesList r.2.1, r.2.2))
      = some (0, [0xb8, 0x14, 0x00, 0x00, 0x00,
                  0x48, 0x89, 0x44, 0x24, 0xf8,
                  0xe8, 0xf6, 0xff, 0xff, 0xff], []) ∧
    (AST_compile_expr 20 [("f", 5)] []
        (.cons (.atom "labelcall") (.cons (.atom "f")
          (.cons (.fixnum 5) (.cons (.fixnum 7) .nil))))
        (-8) w0 []).map (fun r => (r.1, bytesList r.2.1, r.2.2))
      = some (0, [0xb8, 0x14, 0x00, 0x00, 0x00,
                  0x48, 0x89, 0x44, 0x24, 0xf8,
                  0xb8, 0x1c, 0x00, 0x00, 0x00,
                  0x48, 0x89, 0x44, 0x24, 0xf0,
                  0xe8, 0xec, 0xff, 0xff, 0xff], []) := by
  constructor <;> decide

/-- C2: the `sub r64, imm32` emitter writes `0x2d imm32` for `rax` as
claimed, but for any other destination it writes opcode byte `0x83`
(not `0x81`): at `rcx` the emitted bytes are `83 e9 imm32`. -/
theorem Buffer_sub_reg_imm32_bytes :
    (Buffer_sub_reg_imm32 w0 kRcx 4).map bytesList
      = some [0x83, 0xe9, 0x04, 0x00, 0x00, 0x00] ∧
    (Buffer_sub_reg_imm32 w0 kRax 4).map bytesList
      = some [0x2d, 0x04, 0x00, 0x00, 0x00] := by
  constructor <;> decide

/-- C3: back-patching overwrites exactly the four bytes at positions
`post_jump_pos - 4 .. post_jump_pos - 1` with the little-endian bytes
of `current_pos - post_jump_pos`, and leaves every other byte, the
cursor and the length unchanged. -/
theorem BufferWriter_backpatch_spec (w : BufferWriter) (post_jump_pos : Nat)
    (h4 : 4 ≤ post_jump_pos) (hle : post_jump_pos ≤ w.pos)
    (hsmall : w.pos - post_jump_pos < 4294967296) :
    (BufferWriter_backpatch_displacement_imm32 w post_jump_pos).pos = w.pos ∧
    (BufferWriter_backpatch_displacement_imm32 w post_jump_pos).buf.len
      = w.buf.len ∧
    (∀ i, i < post_jump_pos - 4 →
      (BufferWriter_backpatch_displacement_imm32 w post_jump_pos).buf.mem i
        = w.buf.mem i) ∧
    (∀ i, post_jump_pos ≤ i →
      (BufferWriter_backpatch_displacement_imm32 w post_jump_pos).buf.mem i
        = w.buf.mem i) ∧
    (∀ j, j < 4 →
      (BufferWriter_backpatch_displacement_imm32 w post_jump_pos).buf.mem
          (post_jump_pos - 4 + j)
        = ((w.pos - post_jump_pos) >>> (8 * j)) % 256) := by
  have e0 : (((post_jump_pos : Int) - 4) + 0).toNat = post_jump_pos - 4 := by omega
  have e1 : (((post_jump_pos : Int) - 4) + 1).toNat = post_jump_pos - 3 := by omega
  have e2 : (((post_jump_pos : Int) - 4) + 2).toNat = post_jump_pos - 2 := by omega
  have e3 : (((post_jump_pos : Int) - 4) + 3).toNat = post_jump_pos - 1 := by omega
  have hrel : ∀ j : Nat,
      int32byte ((w.pos : Int) - (post_jump_pos : Int)) j
        = ((w.pos - post_jump_pos) >>> (8 * j)) % 256 := by
    intro j
    unfold int32byte
    congr 2
    omega
  refine ⟨rfl, rfl, ?_, ?_, ?_⟩
  · intro i hi
    simp only [BufferWriter_backpatch_displacement_imm32, Buffer_at_put,
      e0, e1, e2, e3, Function.update_apply]
    have n0 : ¬ i = post_jump_pos - 4 := by omega
    have n1 : ¬ i = post_jump_pos - 3 := by omega
    have n2 : ¬ i = post_jump_pos - 2 := by omega
    have n3 : ¬ i = post_jump_pos - 1 := by omega
    simp [n0, n1, n2, n3]
  · intro i hi
    simp only [BufferWriter_backpatch_displacement_imm32, Buffer_at_put,
      e0, e1, e2, e3, Function.update_apply]
    have n0 : ¬ i = post_jump_pos - 4 := by omega
    have n1 : ¬ i = post_jump_pos - 3 := by omega
    have n2 : ¬ i = post_jump_pos - 2 := by omega
    have n3 : ¬ i = post_jump_pos - 1 := by omega
    simp [n0, n1, n2, n3]
  · intro j hj
    have d41 : ¬ post_jump_pos - 4 = post_jump_pos - 1 := by omega
    have d42 : ¬ post_jump_pos - 4 = post_jump_pos - 2 := by omega
    have d43 : ¬ post_jump_pos - 4 = post_jump_pos - 3 := by omega
    have d31 : ¬ post_jump_pos - 3 = post_jump_pos - 1 := by omega
    have d32 : ¬ post_jump_pos - 3 = post_jump_pos - 2 := by omega
    have d21 : ¬ post_jump_pos - 2 = post_jump_pos - 1 := by omega
    interval_cases j
    · have y0 : post_jump_pos - 4 + 0 = post_jump_pos - 4 := by omega
      simp only [BufferWriter_backpatch_displacement_imm32, Buffer_at_put,
        e0, e1, e2, e3, Function.update_apply, y0]
      simp [d41, d42, d43, hrel 0]
    · have y1 : post_jump_pos - 4 + 1 = post_jump_pos - 3 := by omega
      simp only [BufferWriter_backpatch_displacement_imm32, Buffer_at_put,
        e0, e1, e2, e3, Function.update_apply, y1]
      simp [d31, d32, hrel 1]
    · have y2 : post_jump_pos - 4 + 2 = post_jump_pos - 2 := by omega
      simp only [BufferWriter_backpatch_displacement_imm32, Buffer_at_put,
        e0, e1, e2, e3, Function.update_apply, y2]
      simp [d21, hrel 2]
    · have y3 : post_jump_pos - 4 + 3 = post_jump_pos - 1 := by omega
      simp only [BufferWriter_backpatch_displacement_imm32, Buffer_at_put,
        e0, e1, e2, e3, Function.update_apply, y3]
      simp [hrel 3]

/-- C3 witness: back-patching a concrete writer (cursor 9, recorded
post-jump position 5) patches bytes 1..4 with `04 00 00 00` and leaves
byte 0 alone. -/
theorem BufferWriter_backpatch_spec_witness :
    (BufferWriter_backpatch_displacement_imm32 { w0 with pos := 9 } 5).pos = 9 ∧
    (BufferWriter_backpatch_displacement_imm32 { w0 with pos := 9 } 5).buf.mem 0
      = w0.buf.mem 0 ∧
    (BufferWriter_backpatch_displacement_imm32 { w0 with pos := 9 } 5).buf.mem
        (5 - 4 + 0) = ((9 - 5) >>> (8 * 0)) % 256 ∧
    (BufferWriter_backpatch_displacement_imm32 { w0 with pos := 9 } 5).buf.mem
        (5 - 4 + 1) = ((9 - 5) >>> (8 * 1)) % 256 := by
  have h := BufferWriter_backpatch_spec { w0 with pos := 9 } 5
    (by decide) (by decide) (by decide)
  exact ⟨h.1, h.2.2.1 0 (by decide), h.2.2.2.2 0 (by decide),
    h.2.2.2.2 1 (by decide)⟩

/-- C4 counterexample: `n = 2^30` satisfies the claimed acceptance
range and is accepted (both assertions hold), but the `int32` shift
wraps: the encoder returns 0, not `4 * 2^30`. -/
theorem encodeImmediateFixnum_wraps_at_2_pow_30 :
    encodeImmediateFixnum 1073741824 = some 0 ∧
    encodeImmediateFixnum 1073741824 ≠ some (4 * 1073741824) := by
  constructor <;> decide

/-- C4 amended: for every `n` with `-2^31 < n < 2^31 - 1` the encoder
accepts `n` and returns the 32-bit two's-complement truncation of
`n << 2`; the result always has the low two tag bits clear, and equals
`4 * n` exactly on `-2^29 ≤ n < 2^29`. -/
theorem encodeImmediateFixnum_amended (n : Int)
    (h1 : -2147483648 < n) (h2 : n < 2147483647) :
    encodeImmediateFixnum n = some (wrap32 (n * 4)) ∧
    wrap32 (n * 4) % 4 = 0 ∧
    (-536870912 ≤ n → n < 536870912 → wrap32 (n * 4) = n * 4) := by
  refine ⟨?_, ?_, ?_⟩
  · unfold encodeImmediateFixnum
    rw [if_pos (by omega), if_pos (by omega)]
  · unfold wrap32
    omega
  · intro ha hb
    unfold wrap32
    omega

/-- C4 witness: the amended statement evaluated at `n = 3`. -/
theorem encodeImmediateFixnum_amended_witness :
    encodeImmediateFixnum 3 = some (wrap32 (3 * 4)) ∧
    wrap32 (3 * 4) % 4 = 0 ∧
    (-536870912 ≤ (3 : Int) → (3 : Int) < 536870912 →
      wrap32 (3 * 4) = 3 * 4) :=
  encodeImmediateFixnum_amended 3 (by decide) (by decide)

/-- C5 counterexample: the reference encoder gives
`encode_char('A') = 0x410f`, not `0x4147`. -/
theorem encodeImmediateChar_A_ne_0x4147 :
    encodeImmediateChar 65 ≠ 0x4147 := by
  decide

/-- C5 amended: `encode_char('A') = 0x410f`; the code compiled for
`(integer->char 65)` is `mov eax, 0x104; shl rax, 6; or rax, 0x0f`,
and applying those two operations to the fixnum encoding of 65 in a
64-bit register also yields `0x410f`. -/
theorem encodeImmediateChar_A_eq_0x410f :
    encodeImmediateChar 65 = 0x410f ∧
    encodeImmediateFixnum 65 = some 0x104 ∧
    ((0x104 <<< (kCharShift - kFixnumShift)) % 18446744073709551616)
        ||| kCharTag = 0x410f ∧
    (AST_compile_expr 20 [] []
        (.cons (.atom "integer->char") (.cons (.fixnum 65) .nil))
        (-8) w0 []).map (fun r => (r.1, bytesList r.2.1, r.2.2))
      = some (0, [0xb8, 0x04, 0x01, 0x00, 0x00,
                  0x48, 0xc1, 0xe0, 0x06,
                  0x48, 0x0d, 0x0f, 0x00, 0x00, 0x00], []) := by
  refine ⟨by decide, by decide, by decide, by decide⟩

/-- C6: compiling an atom looks the name up in the locals chain; if it
is unbound the compiler appends an "Unbound variable" diagnostic to
stderr, returns -1 and emits nothing; if it is bound to slot `idx` it
returns 0 and the writer advances exactly by the
`mov rax, [rsp+idx]` load emitted by `Buffer_mov_stack_to_reg`. -/
theorem AST_compile_expr_atom_spec (fuel : Nat) (labels locals : Env)
    (name : String) (stack_index : Int) (w : BufferWriter)
    (errs : List String) :
    (Env_lookup locals name = none →
      AST_compile_expr (fuel + 1) labels locals (.atom name) stack_index w errs
        = some (-1, w, errs ++ ["Unbound variable: " ++ name])) ∧
    (∀ idx, Env_lookup locals name = some idx →
      AST_compile_expr (fuel + 1) labels locals (.atom name) stack_index w errs
        = (Buffer_mov_stack_to_reg w kRax idx).map
            (fun w => ((0 : Int), w, errs))) := by
  constructor
  · intro h
    simp [AST_compile_expr, h]
  · intro idx h
    simp only [AST_compile_expr, h]
    cases Buffer_mov_stack_to_reg w kRax idx <;> rfl

/-- C6 witness: `foo` unbound in the empty locals chain; `x` bound to
slot -8. -/
theorem AST_compile_expr_atom_spec_witness :
    AST_compile_expr 1 [] [] (.atom "foo") (-8) w0 []
      = some (-1, w0, [] ++ ["Unbound variable: " ++ "foo"]) ∧
    AST_compile_expr 1 [] [("x", -8)] (.atom "x") (-8) w0 []
      = (Buffer_mov_stack_to_reg w0 kRax (-8)).map
          (fun w => ((0 : Int), w, [])) :=
  ⟨(AST_compile_expr_atom_spec 0 [] [] "foo" (-8) w0 []).1 (by decide),
   (AST_compile_expr_atom_spec 0 [] [("x", -8)] "x" (-8) w0 []).2
     (-8) (by decide)⟩

/-- C7 counterexample: with mprotect refused (result -1),
`Buffer_make_executable` returns normally — it hands the failure code
back and has still marked the buffer executable; it does not halt. -/
theorem Buffer_make_executable_returns_on_failure :
    (Buffer_make_executable
        { mem := fun _ => 0, len := 100, state := .kWritable } (-1)).2
      = -1 ∧
    (Buffer_make_executable
        { mem := fun _ => 0, len := 100, state := .kWritable } (-1)).1.state
      = .kExecutable := by
  constructor <;> rfl

/-- C7 amended: an mmap refusal during `Buffer_init` is a fatal
assertion (the model aborts), but a mprotect refusal is not checked:
`Buffer_make_executable` unconditionally flips the state to executable
and returns the mprotect result to the caller. -/
theorem Buffer_resource_failure_amended :
    (∀ len, Buffer_init none len = none) ∧
    (∀ mem len, Buffer_init (some mem) len
      = some { mem := mem, len := len, state := .kWritable }) ∧
    (∀ buf r, Buffer_make_executable buf r
      = ({ buf with state := .kExecutable }, r)) := by
  refine ⟨fun _ => rfl, fun _ _ => rfl, fun _ _ => rfl⟩

/-- C8: `AST_new_cons` with both operands NULL returns the shared nil
singleton and allocates nothing (the heap is unchanged), and reading
the source text `()` yields that same singleton over an untouched
heap. -/
theorem AST_new_cons_nil_singleton :
    (∀ h : Heap, AST_new_cons h .nullp .nullp = some (h, .nil)) ∧
    Reader_read 8 ['(', ')'] = some ([], ASTPtr.nil) := by
  constructor
  · intro h; rfl
  · rfl

/-- C9: environment lookup returns the payload of the most recent
binding of the queried name — the head of the chain is the newest, so
any binding behind a non-matching prefix is found, and an inner
binding shadows an outer one — and it fails exactly when no binding in
the chain carries the name (names compared by string value). -/
theorem Env_lookup_spec (env pre rest : Env) (name : String) (v : Int) :
    (env = pre ++ (name, v) :: rest → (∀ p ∈ pre, p.1 ≠ name) →
      Env_lookup env name = some v) ∧
    (Env_lookup env name = none ↔ ∀ p ∈ env, p.1 ≠ name) := by
  constructor
  · rintro rfl
    induction pre with
    | nil => intro _; simp [Env_lookup]
    | cons hd tl ih =>
      intro hpre
      obtain ⟨n, pv⟩ := hd
      have hne : n ≠ name := by
        have hh := hpre (n, pv) (by simp)
        simpa using hh
      simp only [List.cons_append, Env_lookup, if_neg hne]
      exact ih (fun p hp => hpre p (List.mem_cons_of_mem _ hp))
  · induction env with
    | nil => simp [Env_lookup]
    | cons hd tl ih =>
      obtain ⟨n, pv⟩ := hd
      by_cases hne : n = name
      · subst hne
        simp [Env_lookup]
      · simp [Env_lookup, hne, ih]

/-- C9 witness: `x` found behind the newer binding `y`; lookup on the
same chain is not `none` because a binding carries the name. -/
theorem Env_lookup_spec_witness :
    Env_lookup [("y", -16), ("x", -8)] "x" = some (-8) ∧
    (Env_lookup [("y", -16), ("x", -8)] "x" = none ↔
      ∀ p ∈ [("y", (-16 : Int)), ("x", -8)], p.1 ≠ "x") :=
  ⟨(Env_lookup_spec [("y", -16), ("x", -8)] [("y", -16)] [] "x" (-8)).1
      (by decide) (by decide),
   (Env_lookup_spec [("y", -16), ("x", -8)] [("y", -16)] [] "x" (-8)).2⟩

/-- C10: when the input at the cursor starts a run of more than
`ATOM_MAX = 32` atom characters, `Reader_read_atom` allocates an atom
whose name is exactly the first 32 characters of the run and advances
the cursor by exactly 32, leaving the rest unconsumed. -/
theorem Reader_read_atom_truncates_at_32 (input : List Char) (pos : Nat)
    (h : Heap)
    (hrun : ∀ i, i ≤ ATOM_MAX → isatomchar (str_at input (pos + i)) = true) :
    Reader_read_atom input pos h
      = (h ++ [HeapASTNode.atom (String.mk
          ((List.range ATOM_MAX).map (fun i => str_at input (pos + i))))],
         ASTPtr.addr h.length, pos + ATOM_MAX) := by
  unfold Reader_read_atom
  rw [Reader_read_atom_loop_all ATOM_MAX input pos []
    (fun i hi => hrun i (by omega))]
  rfl

/-- C10 witness: a run of 33 `a`s is cut at 32 characters, cursor at
32. -/
theorem Reader_read_atom_truncates_at_32_witness :
    Reader_read_atom (List.replicate 33 'a') 0 []
      = ([] ++ [HeapASTNode.atom (String.mk
          ((List.range ATOM_MAX).map
            (fun i => str_at (List.replicate 33 'a') (0 + i))))],
         ASTPtr.addr (List.length ([] : Heap)), 0 + ATOM_MAX) :=
  Reader_read_atom_truncates_at_32 (List.replicate 33 'a') 0 [] (by decide)
